import Mathlib

/-!
Verification of the client-side query/cache/result coordination layer of the
bible-study front end.  The TypeScript/Svelte sources are shallowly embedded:

* `Geo` embeds the geography API module (`fetchBiblicalPlaces`,
  `getConfidenceLevel`, `transformDocumentToPlace`, the module-level
  `placesCache`);
* `Sword` embeds the SWORD original-language API module (`getHebrewText`,
  `getGreekText`, `getInterlinear`, the module-level `verseCache`, mock data);
* `SearchUI` embeds the `SearchBar.svelte` component logic (`handleInput`,
  `performSearch`, `handleSubmit`, `clearSearch`, the exporters).

JavaScript `number` values are modelled as `ℚ` (scores, similarities,
coordinates) or `ℤ` (timestamps, counts, chapter/verse numbers); `Date.now()`
becomes an explicit `now : ℤ` parameter; module-level mutable caches become
explicit cache values threaded through the functions; `async` functions
take the outcome of their awaited network call as an explicit parameter and
return, besides their result, the new cache state and a flag (or request
value) recording whether the non-cache branch was taken.
-/

/-- Embeds JavaScript `String.prototype.trim`: drop whitespace from both
ends (the JS whitespace class is modelled by `Char.isWhitespace`). -/
def jsTrim (s : String) : String :=
  ⟨((s.data.dropWhile Char.isWhitespace).reverse.dropWhile Char.isWhitespace).reverse⟩

/-- Embeds JavaScript `Array.prototype.join(sep)`. -/
def joinSep (sep : String) : List String → String
  | [] => ""
  | [x] => x
  | x :: xs => x ++ sep ++ joinSep sep xs

/-- Embeds JavaScript `Array.prototype.slice(start, stop)` for array `l`
(negative indices count from the end, then are clamped). -/
def jsSlice (l : List α) (start stop : ℤ) : List α :=
  let len : ℤ := l.length
  let s := if start < 0 then max (len + start) 0 else min start len
  let e := if stop < 0 then max (len + stop) 0 else min stop len
  (l.take e.toNat).drop s.toNat

/-- Embeds JavaScript `x || d` for a numeric `x` that may be `undefined`
(`none`): `0` is falsy, so it also falls through to the default. -/
def jsOrZ (x : Option ℤ) (d : ℤ) : ℤ :=
  match x with
  | some v => if v = 0 then d else v
  | none => d

/-- Embeds JavaScript `x || d` for a string `x` that may be `undefined`
(`none`): the empty string is falsy. -/
def jsOrS (x : Option String) (d : Option String) : Option String :=
  match x with
  | some s => if s = "" then d else some s
  | none => d

/-- Embeds JavaScript `(x).toFixed(0)` viewed as an integer: the integer
nearest to `x`, ties resolved to the larger candidate (ECMA-262 picks the
larger `n` when two are equally close). -/
def jsToFixed0 (x : ℚ) : ℤ :=
  ⌊x + 1 / 2⌋

/-- Lookup in a JS `Map` modelled as an association list with shadowing:
the most recent `set` for a key is the first hit. -/
def mapGet (m : List (String × β)) (k : String) : Option β :=
  (m.find? (fun p => p.1 == k)).map (fun p => p.2)

/-- The read side of the in-memory response caches: an entry is returned
only while `now - timestamp < ttl`; an absent or expired entry yields
`none` (embeds `cached && Date.now() - cached.timestamp < CACHE_TTL`). -/
def cacheGet (m : List (String × α × ℤ)) (k : String) (now ttl : ℤ) : Option α :=
  match mapGet m k with
  | some (d, t) => if now - t < ttl then some d else none
  | none => none

/-- The write side of the caches: store the payload with the current
timestamp, overwriting (shadowing) any prior entry for the key (embeds
`cache.set(key, { data, timestamp: Date.now() })`). -/
def cachePut (m : List (String × α × ℤ)) (k : String) (v : α) (now : ℤ) :
    List (String × α × ℤ) :=
  (k, v, now) :: m

namespace Geo

/-- `VITE_PRISM_API_URL`'s default value from the geography module. -/
def PRISM_API_URL : String := "http://localhost:8100"

/-- `const CACHE_TTL = 10 * 60 * 1000` (10 minutes) from the geography module. -/
def CACHE_TTL : ℤ := 10 * 60 * 1000

/-- The `BiblicalPlace` interface.  `id`/`document_id` are `Option` because
the defensive extraction can leave them `undefined`. -/
structure BiblicalPlace where
  id : Option String
  document_id : Option String
  name : String
  latitude : ℚ
  longitude : ℚ
  place_type : String
  confidence_score : ℚ
  confidence_level : String
  verse_references : List String
  alternate_names : List String
  content : String
  deriving DecidableEq

/-- The `PlacesResponse` interface. -/
structure PlacesResponse where
  places : List BiblicalPlace
  total : ℤ
  deriving DecidableEq

/-- The `SearchPlacesParams` interface (all fields optional). -/
structure SearchPlacesParams where
  query : Option String := none
  placeType : Option String := none
  confidenceLevel : Option String := none
  limit : Option ℤ := none
  offset : Option ℤ := none
  deriving DecidableEq

/-- The metadata object of a Prism document, as the geography module reads
it.  `verse_references`/`alternate_names` may be an array or a string
(`Array.isArray` dispatch), numbers arrive as `Option ℚ` (`none` covers a
missing field and a `parseFloat` that yields `NaN`). -/
structure DocMetadata where
  domain : Option String := none
  name : Option String := none
  latitude : Option ℚ := none
  longitude : Option ℚ := none
  place_type : Option String := none
  confidence : Option ℚ := none
  verse_references : Option (List String ⊕ String) := none
  alternate_names : Option (List String ⊕ String) := none
  deriving DecidableEq

/-- A Prism document as consumed by `transformDocumentToPlace`. -/
structure PrismDoc where
  id : Option String := none
  document_id : Option String := none
  content : Option String := none
  metadata : Option DocMetadata := none
  deriving DecidableEq

/-- The JSON body of `GET /api/v1/documents`. -/
structure DocsResponse where
  documents : List PrismDoc
  total : Option ℤ := none
  deriving DecidableEq

/-- An HTTP request as issued through `fetch`. -/
structure HttpRequest where
  method : String
  url : String
  body : Option String
  deriving DecidableEq

/-- The one request `fetchBiblicalPlaces` issues: a bare GET on the
documents listing, with no body and no query parameters. -/
def documentsRequest : HttpRequest :=
  { method := "GET", url := PRISM_API_URL ++ "/api/v1/documents", body := none }

/-- The local `filters` object `fetchBiblicalPlaces` builds from its
parameters (lines 57–67 of the module).  It is constructed but never
attached to the request. -/
def buildFilters (placeType confidenceLevel : Option String) : List (String × String) :=
  [("metadata.domain", "geography/biblical")]
    ++ (match placeType with
        | some t => [("metadata.place_type", t)]
        | none => [])
    ++ (match confidenceLevel with
        | some c => [("metadata.confidence_level", c)]
        | none => [])

/-- `getConfidenceLevel` from the geography module: fixed thresholds at
300 and 80. -/
def getConfidenceLevel (score : ℚ) : String :=
  if score ≥ 300 then "high"
  else if score ≥ 80 then "moderate"
  else "low"

/-- `extractNameFromContent`: first line up to a colon, trimmed; falling
back to the first 50 characters of the first line, or `"Unknown Place"`
for missing/empty content. -/
def extractNameFromContent (content : Option String) : String :=
  match content with
  | none => "Unknown Place"
  | some c =>
    if c = "" then "Unknown Place"
    else
      let firstLine : List Char := c.data.takeWhile (fun ch => ch ≠ '\n')
      let matched : List Char := firstLine.takeWhile (fun ch => ch ≠ ':')
      if matched = [] then ⟨firstLine.take 50⟩
      else jsTrim ⟨matched⟩

/-- `transformDocumentToPlace`: defensive field extraction with the
fallbacks of the source (empty strings falsy under `||`, `parseFloat`
failures and missing numbers become `0`, string-valued reference lists are
split on commas and empties dropped). -/
def transformDocumentToPlace (doc : PrismDoc) : BiblicalPlace :=
  let metadata := doc.metadata.getD {}
  { id := jsOrS doc.id doc.document_id
    document_id := jsOrS doc.document_id doc.id
    name :=
      match metadata.name with
      | some s => if s = "" then extractNameFromContent doc.content else s
      | none => extractNameFromContent doc.content
    latitude := metadata.latitude.getD 0
    longitude := metadata.longitude.getD 0
    place_type :=
      match metadata.place_type with
      | some s => if s = "" then "unknown" else s
      | none => "unknown"
    confidence_score := metadata.confidence.getD 0
    confidence_level := getConfidenceLevel (metadata.confidence.getD 0)
    verse_references :=
      match metadata.verse_references with
      | some (.inl l) => l
      | some (.inr s) => (s.splitOn ",").filter (fun x => x ≠ "")
      | none => (("" : String).splitOn ",").filter (fun x => x ≠ "")
    alternate_names :=
      match metadata.alternate_names with
      | some (.inl l) => l
      | some (.inr s) => (s.splitOn ",").filter (fun x => x ≠ "")
      | none => (("" : String).splitOn ",").filter (fun x => x ≠ "")
    content := doc.content.getD "" }

/-- The domain filter applied client-side to the documents listing
(`doc.metadata?.domain === 'geography/biblical'`). -/
def domainIsBiblical (doc : PrismDoc) : Bool :=
  match doc.metadata with
  | some m => m.domain == some "geography/biblical"
  | none => false

/-- The error messages `fetchBiblicalPlaces` throws for non-OK statuses. -/
def statusMessage (status : ℤ) : String :=
  if status = 404 then
    "Geography data not found. Please ensure biblical places have been imported into Prism."
  else if status = 503 then
    "Prism API is unavailable. Please check that the service is running."
  else
    "Failed to load geography data (HTTP " ++ Int.repr status ++ "). Check API logs for details."

/-- The module-level `placesCache`: a single optional entry holding the
unfiltered full listing plus its creation timestamp. -/
structure PlacesCacheEntry where
  data : List BiblicalPlace
  timestamp : ℤ
  deriving DecidableEq

deriving instance DecidableEq for Except

/-- Everything one call of `fetchBiblicalPlaces` produces: the network
request it issued (`none` on the cache-hit path), its result, and the
`placesCache` state it leaves behind. -/
structure PlacesFetchOutcome where
  request : Option HttpRequest
  result : Except String PlacesResponse
  cache : Option PlacesCacheEntry
  deriving DecidableEq

/-- `fetchBiblicalPlaces`.  `cache` is the module-level `placesCache`,
`now` is `Date.now()`, and `resp` is the outcome of the awaited
`fetch` (`.error status` for a non-2xx response). -/
def fetchBiblicalPlaces (params : SearchPlacesParams)
    (cache : Option PlacesCacheEntry) (now : ℤ)
    (resp : Except ℤ DocsResponse) : PlacesFetchOutcome :=
  let limit := params.limit.getD 100
  let offset := params.offset.getD 0
  let cacheFresh : Bool :=
    match cache with
    | some e => decide (now - e.timestamp < CACHE_TTL)
    | none => false
  if params.placeType.isNone && params.confidenceLevel.isNone && cacheFresh then
    match cache with
    | some e =>
      { request := none
        result := .ok { places := jsSlice e.data offset (offset + limit)
                        total := e.data.length }
        cache := cache }
    | none =>
      -- unreachable: `cacheFresh` is false when the cache is empty
      { request := none, result := .ok { places := [], total := 0 }, cache := cache }
  else
    match resp with
    | .error status =>
      { request := some documentsRequest
        result := .error (statusMessage status)
        cache := cache }
    | .ok data =>
      let allPlaces := (data.documents.filter domainIsBiblical).map transformDocumentToPlace
      let cache' :=
        if params.placeType.isNone && params.confidenceLevel.isNone then
          some { data := allPlaces, timestamp := now }
        else cache
      { request := some documentsRequest
        result := .ok { places := jsSlice allPlaces offset (offset + limit)
                        total := jsOrZ data.total allPlaces.length }
        cache := cache' }

/-- `getPlacesByType`: delegates to `fetchBiblicalPlaces` with a
`placeType` filter and default limit 50, returning only the places. -/
def getPlacesByType (placeType : String) (cache : Option PlacesCacheEntry)
    (now : ℤ) (resp : Except ℤ DocsResponse) : Except String (List BiblicalPlace) :=
  (fetchBiblicalPlaces { placeType := some placeType, limit := some 50 } cache now resp).result.map
    (fun r => r.places)

end Geo

namespace Sword

/-- `const USE_MOCK_DATA = true` from the SWORD module. -/
def USE_MOCK_DATA : Bool := true

/-- `const CACHE_TTL = 30 * 60 * 1000` (30 minutes) from the SWORD module. -/
def CACHE_TTL : ℤ := 30 * 60 * 1000

/-- The `VerseText` interface. -/
structure VerseText where
  original_text : String
  language : String
  strongs_numbers : Option (List String) := none
  book : String
  chapter : ℤ
  verse : ℤ
  translation : Option String := none
  deriving DecidableEq

/-- The `InterlinearWord` interface. -/
structure InterlinearWord where
  original : String
  transliteration : String
  gloss : String
  strongs : Option String := none
  morphology : Option String := none
  deriving DecidableEq

/-- The `InterlinearVerse` interface. -/
structure InterlinearVerse where
  words : List InterlinearWord
  book : String
  chapter : ℤ
  verse : ℤ
  language : String
  deriving DecidableEq

/-- `OT_BOOKS` from the SWORD module. -/
def OT_BOOKS : List String :=
  ["Genesis", "Exodus", "Leviticus", "Numbers", "Deuteronomy",
   "Joshua", "Judges", "Ruth", "1 Samuel", "2 Samuel",
   "1 Kings", "2 Kings", "1 Chronicles", "2 Chronicles",
   "Ezra", "Nehemiah", "Esther", "Job", "Psalms", "Proverbs",
   "Ecclesiastes", "Song of Songs", "Isaiah", "Jeremiah",
   "Lamentations", "Ezekiel", "Daniel", "Hosea", "Joel",
   "Amos", "Obadiah", "Jonah", "Micah", "Nahum", "Habakkuk",
   "Zephaniah", "Haggai", "Zechariah", "Malachi"]

/-- `NT_BOOKS` from the SWORD module. -/
def NT_BOOKS : List String :=
  ["Matthew", "Mark", "Luke", "John", "Acts",
   "Romans", "1 Corinthians", "2 Corinthians", "Galatians",
   "Ephesians", "Philippians", "Colossians",
   "1 Thessalonians", "2 Thessalonians",
   "1 Timothy", "2 Timothy", "Titus", "Philemon",
   "Hebrews", "James", "1 Peter", "2 Peter",
   "1 John", "2 John", "3 John", "Jude", "Revelation"]

/-- `getTestament`: `"OT"`, `"NT"`, or `none` for an unknown book. -/
def getTestament (book : String) : Option String :=
  if OT_BOOKS.contains book then some "OT"
  else if NT_BOOKS.contains book then some "NT"
  else none

/-- `getLanguage`: Hebrew for OT books, Greek for NT books. -/
def getLanguage (book : String) : Option String :=
  match getTestament book with
  | some t => if t = "OT" then some "hebrew" else some "greek"
  | none => none

/-- The sample table of `getMockHebrewText`. -/
def hebrewSamples : List (String × String) :=
  [("Genesis:1:1", "בְּרֵאשִׁית בָּרָא אֱלֹהִים אֵת הַשָּׁמַיִם וְאֵת הָאָרֶץ"),
   ("Genesis:1:2", "וְהָאָרֶץ הָיְתָה תֹהוּ וָבֹהוּ וְחֹשֶׁךְ עַל־פְּנֵי תְהוֹם וְרוּחַ אֱלֹהִים מְרַחֶפֶת עַל־פְּנֵי הַמָּיִם"),
   ("Psalms:23:1", "יְהוָה רֹעִי לֹא אֶחְסָר"),
   ("Psalms:23:2", "בִּנְאוֹת דֶּשֶׁא יַרְבִּיצֵנִי עַל־מֵי מְנֻחוֹת יְנַהֲלֵנִי")]

/-- The sample table of `getMockGreekText`. -/
def greekSamples : List (String × String) :=
  [("John:1:1", "Ἐν ἀρχῇ ἦν ὁ λόγος καὶ ὁ λόγος ἦν πρὸς τὸν θεόν καὶ θεὸς ἦν ὁ λόγος"),
   ("John:1:2", "οὗτος ἦν ἐν ἀρχῇ πρὸς τὸν θεόν"),
   ("John:3:16", "Οὕτως γὰρ ἠγάπησεν ὁ θεὸς τὸν κόσμον ὥστε τὸν υἱὸν τὸν μονογενῆ ἔδωκεν"),
   ("Matthew:1:1", "Βίβλος γενέσεως Ἰησοῦ Χριστοῦ υἱοῦ Δαυὶδ υἱοῦ Ἀβραάμ")]

/-- The `${book}:${chapter}:${verse}` sample key. -/
def sampleKey (book : String) (chapter verse : ℤ) : String :=
  book ++ ":" ++ Int.repr chapter ++ ":" ++ Int.repr verse

/-- `getMockHebrewText`. -/
def getMockHebrewText (book : String) (chapter verse : ℤ) : VerseText :=
  let key := sampleKey book chapter verse
  let original_text :=
    match mapGet hebrewSamples key with
    | some s => s
    | none => "בְּרֵאשִׁית בָּרָא אֱלֹהִים"
  { original_text
    language := "hebrew"
    book, chapter, verse
    translation := some "In the beginning God created..."
    strongs_numbers := some ["H7225", "H1254", "H430"] }

/-- `getMockGreekText`. -/
def getMockGreekText (book : String) (chapter verse : ℤ) : VerseText :=
  let key := sampleKey book chapter verse
  let original_text :=
    match mapGet greekSamples key with
    | some s => s
    | none => "Ἐν ἀρχῇ ἦν ὁ λόγος"
  { original_text
    language := "greek"
    book, chapter, verse
    translation := some "In the beginning was the Word..."
    strongs_numbers := some ["G1722", "G746", "G1510", "G3056"] }

/-- `getMockInterlinear`: a fixed Hebrew word list for OT books, a fixed
Greek one otherwise. -/
def getMockInterlinear (book : String) (chapter verse : ℤ) : InterlinearVerse :=
  if getTestament book = some "OT" then
    { book, chapter, verse
      language := "hebrew"
      words :=
        [{ original := "בְּרֵאשִׁית", transliteration := "bərēšîṯ", gloss := "in-beginning", strongs := some "H7225" },
         { original := "בָּרָא", transliteration := "bārā", gloss := "he-created", strongs := some "H1254" },
         { original := "אֱלֹהִים", transliteration := "ʾĕlōhîm", gloss := "God", strongs := some "H430" },
         { original := "אֵת", transliteration := "ʾēṯ", gloss := "(obj)", strongs := some "H853" },
         { original := "הַשָּׁמַיִם", transliteration := "haš-šāmayim", gloss := "the-heavens", strongs := some "H8064" },
         { original := "וְאֵת", transliteration := "wə-ʾēṯ", gloss := "and-(obj)", strongs := some "H853" },
         { original := "הָאָרֶץ", transliteration := "hā-ʾāreṣ", gloss := "the-earth", strongs := some "H776" }] }
  else
    { book, chapter, verse
      language := "greek"
      words :=
        [{ original := "Ἐν", transliteration := "En", gloss := "In", strongs := some "G1722" },
         { original := "ἀρχῇ", transliteration := "archē", gloss := "beginning", strongs := some "G746" },
         { original := "ἦν", transliteration := "ēn", gloss := "was", strongs := some "G1510" },
         { original := "ὁ", transliteration := "ho", gloss := "the", strongs := some "G3588" },
         { original := "λόγος", transliteration := "logos", gloss := "Word", strongs := some "G3056" },
         { original := "καὶ", transliteration := "kai", gloss := "and", strongs := some "G2532" },
         { original := "ὁ", transliteration := "ho", gloss := "the", strongs := some "G3588" },
         { original := "λόγος", transliteration := "logos", gloss := "Word", strongs := some "G3056" },
         { original := "ἦν", transliteration := "ēn", gloss := "was", strongs := some "G1510" },
         { original := "πρὸς", transliteration := "pros", gloss := "with", strongs := some "G4314" },
         { original := "τὸν", transliteration := "ton", gloss := "the", strongs := some "G3588" },
         { original := "θεόν", transliteration := "theon", gloss := "God", strongs := some "G2316" }] }

/-- The module-level `verseCache` of the SWORD module. -/
abbrev VCache := List (String × VerseText × ℤ)

/-- The `hebrew:${book}:${chapter}:${verse}` cache key of `getHebrewText`. -/
def hebrewKey (book : String) (chapter verse : ℤ) : String :=
  "hebrew:" ++ book ++ ":" ++ Int.repr chapter ++ ":" ++ Int.repr verse

/-- `getHebrewText`: checks `verseCache` first; on a miss computes (mock
mode) or fetches (live mode, outcome `fetchResp`) the verse and stores it.
Returns the verse, the cache it leaves behind, and `true` iff the
non-cache branch ran. -/
def getHebrewText (book : String) (chapter verse : ℤ)
    (fetchResp : Option VerseText) (cache : VCache) (now : ℤ) :
    Option VerseText × VCache × Bool :=
  let key := hebrewKey book chapter verse
  match cacheGet cache key now CACHE_TTL with
  | some d => (some d, cache, false)
  | none =>
    if USE_MOCK_DATA then
      let d := getMockHebrewText book chapter verse
      (some d, cachePut cache key d now, true)
    else
      match fetchResp with
      | some data => (some data, cachePut cache key data now, true)
      | none => (none, cache, true)

/-- `getGreekText`: returns mock data directly (mock mode) or the fetch
outcome (live mode).  In neither mode does it read or write `verseCache`;
the cache is returned unchanged and the flag is always `true`. -/
def getGreekText (book : String) (chapter verse : ℤ)
    (fetchResp : Option VerseText) (cache : VCache) (_now : ℤ) :
    Option VerseText × VCache × Bool :=
  if USE_MOCK_DATA then (some (getMockGreekText book chapter verse), cache, true)
  else
    match fetchResp with
    | some d => (some d, cache, true)
    | none => (none, cache, true)

/-- `getInterlinear`: like `getGreekText`, never touches `verseCache`. -/
def getInterlinear (book : String) (chapter verse : ℤ)
    (fetchResp : Option InterlinearVerse) (cache : VCache) (_now : ℤ) :
    Option InterlinearVerse × VCache × Bool :=
  if USE_MOCK_DATA then (some (getMockInterlinear book chapter verse), cache, true)
  else
    match fetchResp with
    | some d => (some d, cache, true)
    | none => (none, cache, true)

end Sword

namespace SearchUI

/-- A search result as rendered and exported by `SearchBar.svelte`. -/
structure SearchResult where
  verse_ref : String
  book : String
  chapter : ℤ
  verse : ℤ
  translation : String
  text : String
  similarity : ℚ
  deriving DecidableEq

/-- The component/store state `SearchBar.svelte` manipulates: the local
`query` (kept in sync with the `searchQuery` store), the `isSearching`,
`searchError` and `searchResults` stores, the pending `debounceTimer`
(modelled as a flag: is a `performSearch` callback scheduled?), and the
`selectedTranslations` / `searchFilters.top_k` store values the component
reads. -/
structure SearchState where
  query : String
  isSearching : Bool
  searchError : Option String
  searchResults : List SearchResult
  timerPending : Bool
  translations : List String
  topK : ℤ
  deriving DecidableEq

/-- One observable store write or network dispatch performed by
`performSearch`. -/
inductive Effect where
  | setSearching : Bool → Effect
  | setError : Option String → Effect
  | setResults : List SearchResult → Effect
  | dispatch : String → List String → ℤ → Effect
  deriving DecidableEq

/-- Applying one effect to the state. -/
def applyEffect (s : SearchState) : Effect → SearchState
  | .setSearching b => { s with isSearching := b }
  | .setError e => { s with searchError := e }
  | .setResults r => { s with searchResults := r }
  | .dispatch _ _ _ => s

/-- Applying a whole effect sequence in order. -/
def runEffects (s : SearchState) (effs : List Effect) : SearchState :=
  effs.foldl applyEffect s

/-- The error message `performSearch` surfaces on failure. -/
def searchFailedMessage : String := "Search failed. Please check that Prism is running."

/-- The effect sequence of one execution of `performSearch`: early return
below the length minimum, otherwise set the in-progress flag, clear the
error, dispatch `searchBible(query, translations, top_k)`, record the
awaited outcome, and (in `finally`) clear the in-progress flag. -/
def performSearch (query : String) (translations : List String) (topK : ℤ)
    (outcome : Except String (List SearchResult)) : List Effect :=
  if (jsTrim query).length < 3 then []
  else
    [.setSearching true, .setError none, .dispatch query translations topK]
      ++ (match outcome with
          | .ok results => [.setResults results]
          | .error _ => [.setError (some searchFailedMessage)])
      ++ [.setSearching false]

/-- `handleInput`: store the new text, cancel any pending debounce timer,
then either schedule a fresh `performSearch` (trimmed length above 2) or
clear the results. -/
def handleInput (text : String) (s : SearchState) : SearchState :=
  let s1 := { s with query := text, timerPending := false }
  if (jsTrim text).length > 2 then { s1 with timerPending := true }
  else { s1 with searchResults := [] }

/-- The effects of `handleSubmit` (forced submit): `performSearch` iff the
trimmed query is longer than 2 characters. -/
def handleSubmitEffects (s : SearchState) (outcome : Except String (List SearchResult)) :
    List Effect :=
  if (jsTrim s.query).length > 2 then performSearch s.query s.translations s.topK outcome
  else []

/-- The debounce timer firing: runs the scheduled `performSearch` against
the query text current at that moment (the callback closes over the
mutable `query` variable); no-op when nothing is scheduled. -/
def timerFireEffects (s : SearchState) (outcome : Except String (List SearchResult)) :
    List Effect :=
  if s.timerPending then performSearch s.query s.translations s.topK outcome
  else []

/-- The state after the debounce timer fired (the timer is consumed). -/
def timerFireState (s : SearchState) (outcome : Except String (List SearchResult)) :
    SearchState :=
  runEffects { s with timerPending := false } (timerFireEffects s outcome)

/-- `clearSearch`: resets query, results and error.  The source does not
call `clearTimeout`, so the pending-timer flag is left untouched. -/
def clearSearch (s : SearchState) : SearchState :=
  { s with query := "", searchResults := [], searchError := none }

/-- Embeds JavaScript `String.prototype.toUpperCase` (ASCII case map). -/
def jsToUpperCase (s : String) : String := ⟨s.data.map Char.toUpper⟩

/-- Embeds JavaScript `(x).toFixed(0)` rendered as a string. -/
def jsToFixed0Str (x : ℚ) : String := Int.repr (jsToFixed0 x)

/-- The `'='.repeat(80)` separator line of the text exporter. -/
def separator80 : String := ⟨List.replicate 80 '='⟩

/-- The `lines` array built by `exportResults` (the `.txt` exporter):
header block, separator, one numbered block per result (1-based index,
reference, upper-cased translation, similarity as a rounded percentage,
text), separator, fixed attribution footer.  `dateStr` stands for
`new Date().toLocaleDateString()`. -/
def exportResultsLines (query : String) (translations : List String)
    (dateStr : String) (results : List SearchResult) : List String :=
  ["Search Query: \"" ++ query ++ "\"",
   "Results: " ++ Nat.repr results.length,
   "Translations: " ++ jsToUpperCase (joinSep ", " translations),
   "Date: " ++ dateStr,
   "",
   separator80,
   ""]
  ++ results.enum.flatMap (fun p =>
      [Nat.repr (p.1 + 1) ++ ". " ++ p.2.verse_ref ++ " (" ++ jsToUpperCase p.2.translation ++ ")",
       "   Similarity: " ++ jsToFixed0Str (p.2.similarity * 100) ++ "%",
       "   " ++ p.2.text,
       ""])
  ++ [separator80,
      "",
      "Source: Prism Religious Studies (Christianity Module)",
      "Search Engine: Prism (Personal Semantic Data Layer)",
      "Embedding Model: nomic-embed-text (768 dimensions)"]

/-- `exportResults`: a no-op (`none`) with zero results, otherwise the
joined `.txt` body. -/
def exportResults (query : String) (translations : List String)
    (dateStr : String) (results : List SearchResult) : Option String :=
  if results.length = 0 then none
  else some (joinSep "\n" (exportResultsLines query translations dateStr results))

/-- The CSV header fields of `exportAsCSV`. -/
def csvHeaders : List String :=
  ["Reference", "Book", "Chapter", "Verse", "Translation", "Similarity", "Text"]

/-- Doubling of double quotes on a character list (the list form of
`text.replace(/"/g, '""')`). -/
def dupQuotes : List Char → List Char
  | [] => []
  | c :: cs => if c = '"' then '"' :: '"' :: dupQuotes cs else c :: dupQuotes cs

/-- Embeds `text.replace(/"/g, '""')`. -/
def csvEscape (s : String) : String := ⟨dupQuotes s.data⟩

/-- `Similarity` as rendered by both exporters:
`(similarity * 100).toFixed(0) + '%'`. -/
def simPercent (q : ℚ) : String := jsToFixed0Str (q * 100) ++ "%"

/-- One CSV data row of `exportAsCSV`: only the `Text` field is wrapped in
double quotes (with internal quotes doubled); all other fields are
emitted verbatim. -/
def csvRow (r : SearchResult) : List String :=
  [r.verse_ref, r.book, Int.repr r.chapter, Int.repr r.verse,
   jsToUpperCase r.translation, simPercent r.similarity,
   "\"" ++ csvEscape r.text ++ "\""]

/-- The `csvContent` string of `exportAsCSV`: header row and data rows
joined by commas, records joined by newlines. -/
def exportAsCSVContent (results : List SearchResult) : String :=
  joinSep "\n" (joinSep "," csvHeaders :: results.map (fun r => joinSep "," (csvRow r)))

/-- `exportAsCSV`: a no-op (`none`) with zero results, otherwise the CSV
body. -/
def exportAsCSV (results : List SearchResult) : Option String :=
  if results.length = 0 then none else some (exportAsCSVContent results)

end SearchUI

namespace CSV

/-!
Modelled from the spec: the export round-trip property asks that "parsing
the CSV export with a standard CSV parser" recovers the fields.  The
repository contains no CSV reader, so a standard one is defined here:
fields are separated by commas, records by newlines; a field beginning
with a double quote extends to the matching closing quote, with a doubled
quote inside read as one literal quote.
-/

/-- Body of a quoted field: consume up to the closing quote, reading `""`
as a literal quote; returns the field's characters and the input after
the closing quote. -/
def pq : List Char → List Char × List Char
  | [] => ([], [])
  | c :: rest =>
    if c = '"' then
      match rest with
      | c2 :: rest2 =>
        if c2 = '"' then (('"' : Char) :: (pq rest2).1, (pq rest2).2)
        else ([], rest)
      | [] => ([], [])
    else (c :: (pq rest).1, (pq rest).2)

/-- An unquoted field: everything up to the next comma or newline. -/
def pu : List Char → List Char × List Char
  | [] => ([], [])
  | c :: rest =>
    if c = ',' || c = '\n' then ([], c :: rest)
    else (c :: (pu rest).1, (pu rest).2)

/-- One field: quoted when the first character is a double quote. -/
def parseField (cs : List Char) : List Char × List Char :=
  match cs with
  | '"' :: rest => pq rest
  | _ => pu cs

/-- Prepend a field onto the first record of an already parsed tail. -/
def consFirst (f : String) : List (List String) → List (List String)
  | [] => [[f]]
  | r0 :: rs => (f :: r0) :: rs

/-- Record splitter with explicit fuel (one unit per field suffices).
After a field: a comma continues the record, a newline ends it, anything
else (in particular the end of input) ends the parse. -/
def splitRecsF : ℕ → List Char → List (List String)
  | 0, _ => []
  | fuel + 1, cs =>
    let p := parseField cs
    match p.2 with
    | c :: r =>
      if c = ',' then consFirst ⟨p.1⟩ (splitRecsF fuel r)
      else if c = '\n' then [(⟨p.1⟩ : String)] :: splitRecsF fuel r
      else [[(⟨p.1⟩ : String)]]
    | [] => [[(⟨p.1⟩ : String)]]

/-- Record splitter with the canonical (always sufficient) fuel. -/
def SR (cs : List Char) : List (List String) :=
  splitRecsF (cs.length + 1) cs

/-- The standard CSV parser: the list of records, each a list of fields. -/
def parseCSV (s : String) : List (List String) :=
  SR s.data

/-- A string that an unquoted CSV field carries verbatim through the
round trip: no separator, no newline, no double quote. -/
@[reducible] def CleanF (s : String) : Prop :=
  ∀ c ∈ s.data, ¬(c = ',' ∨ c = '\n' ∨ c = '"')

/-- Does the remaining input begin with a field/record separator (or
end)? -/
def headStop : List Char → Bool
  | [] => true
  | c :: _ => c == ',' || c == '\n'

/-- Does the remaining input begin with anything but a double quote (or
end)? -/
def headNotQuote : List Char → Bool
  | [] => true
  | c :: _ => !(c == '"')

/-- The fields a standard parse of one exported CSV row yields: every
field verbatim except that `Translation` is upper-cased by the exporter
and `Text` loses its quoting. -/
def parsedRow (r : SearchUI.SearchResult) : List String :=
  [r.verse_ref, r.book, Int.repr r.chapter, Int.repr r.verse,
   SearchUI.jsToUpperCase r.translation, SearchUI.simPercent r.similarity, r.text]

end CSV

/-- C1: for every numeric confidence score `s`, `getConfidenceLevel`
returns `"high"` iff `s ≥ 300`, `"moderate"` iff `80 ≤ s < 300`, and
`"low"` otherwise (in particular for `0` and negative scores); as a total
Lean function it is pure and never throws by construction. -/
theorem confidence_level_thresholds (s : ℚ) :
    (Geo.getConfidenceLevel s = "high" ↔ 300 ≤ s) ∧
    (Geo.getConfidenceLevel s = "moderate" ↔ 80 ≤ s ∧ s < 300) ∧
    (Geo.getConfidenceLevel s = "low" ↔ s < 80) := by
  unfold Geo.getConfidenceLevel
  split
  · refine ⟨⟨fun _ => by linarith, fun _ => rfl⟩, ?_, ?_⟩
    · constructor
      · intro h; exact absurd h (by decide)
      · rintro ⟨-, h⟩; linarith
    · constructor
      · intro h; exact absurd h (by decide)
      · intro h; linarith
  · split
    · refine ⟨?_, ?_, ?_⟩
      · constructor
        · intro h; exact absurd h (by decide)
        · intro h; linarith
      · exact ⟨fun _ => ⟨by linarith, by linarith⟩, fun _ => rfl⟩
      · constructor
        · intro h; exact absurd h (by decide)
        · intro h; linarith
    · refine ⟨?_, ?_, ?_⟩
      · constructor
        · intro h; exact absurd h.symm (by decide)
        · intro h; linarith
      · constructor
        · intro h; exact absurd h.symm (by decide)
        · rintro ⟨h, -⟩; linarith
      · exact ⟨fun _ => by linarith, fun _ => rfl⟩

/-- C2: on every execution of `performSearch` whose query passes the
minimum-length check, the effect sequence starts by setting the
in-progress flag and clearing any prior error; the final state has the
results replaced wholesale and no error on success, the user-facing error
message on failure; and the in-progress flag is `false` in the final
state for every outcome (the early-return path does not occur for a
passing query, so these are all the exit paths). -/
theorem performSearch_inflight_contract (q : String) (tr : List String) (k : ℤ)
    (outcome : Except String (List SearchUI.SearchResult)) (s : SearchUI.SearchState)
    (h : 3 ≤ (jsTrim q).length) :
    (SearchUI.performSearch q tr k outcome).take 2 =
      [.setSearching true, .setError none] ∧
    (SearchUI.runEffects s (SearchUI.performSearch q tr k outcome)).isSearching = false ∧
    (∀ rs, outcome = .ok rs →
      (SearchUI.runEffects s (SearchUI.performSearch q tr k outcome)).searchResults = rs ∧
      (SearchUI.runEffects s (SearchUI.performSearch q tr k outcome)).searchError = none) ∧
    (∀ e, outcome = .error e →
      (SearchUI.runEffects s (SearchUI.performSearch q tr k outcome)).searchError =
        some SearchUI.searchFailedMessage) := by
  have hc : ¬ ((jsTrim q).length < 3) := by omega
  cases outcome <;>
    simp [SearchUI.performSearch, hc, SearchUI.runEffects, SearchUI.applyEffect]

/-- Witness for C2 at a concrete passing query, for both outcomes. -/
theorem performSearch_inflight_contract_witness :
    3 ≤ (jsTrim "shepherd").length ∧
    (SearchUI.runEffects
      { query := "shepherd", isSearching := false, searchError := none,
        searchResults := [], timerPending := false, translations := ["kjv"], topK := 10 }
      (SearchUI.performSearch "shepherd" ["kjv"] 10
        (.error "connection refused"))).isSearching = false := by
  refine ⟨by decide, ?_⟩
  exact (performSearch_inflight_contract "shepherd" ["kjv"] 10 (.error "connection refused")
    { query := "shepherd", isSearching := false, searchError := none,
      searchResults := [], timerPending := false, translations := ["kjv"], topK := 10 }
    (by decide)).2.1

/-- C3: for every query whose trimmed length is at most 2, `handleInput`
clears the results immediately and schedules no debounce timer (so no
debounced request can fire), a forced submit issues no request, and a
direct `performSearch` run on that query is an early return with no
effects — no search request is ever dispatched. -/
theorem short_query_no_dispatch (q : String) (s : SearchUI.SearchState)
    (outcome : Except String (List SearchUI.SearchResult))
    (h : (jsTrim q).length ≤ 2) :
    (SearchUI.handleInput q s).searchResults = [] ∧
    (SearchUI.handleInput q s).timerPending = false ∧
    SearchUI.timerFireEffects (SearchUI.handleInput q s) outcome = [] ∧
    SearchUI.handleSubmitEffects (SearchUI.handleInput q s) outcome = [] ∧
    SearchUI.performSearch q s.translations s.topK outcome = [] := by
  have h1 : ¬ ((jsTrim q).length > 2) := by omega
  have h2 : (jsTrim q).length < 3 := by omega
  simp [SearchUI.handleInput, SearchUI.timerFireEffects, SearchUI.handleSubmitEffects,
    SearchUI.performSearch, h1, h2]

/-- Witness for C3 at the concrete short query `"ab"`. -/
theorem short_query_no_dispatch_witness :
    (jsTrim "ab").length ≤ 2 ∧
    (SearchUI.handleInput "ab"
      { query := "old", isSearching := false, searchError := none,
        searchResults := [], timerPending := true, translations := ["kjv"], topK := 10 }).timerPending
      = false := by
  refine ⟨by decide, ?_⟩
  exact (short_query_no_dispatch "ab"
    { query := "old", isSearching := false, searchError := none,
      searchResults := [], timerPending := true, translations := ["kjv"], topK := 10 }
    (.ok []) (by decide)).2.1

/-- C4: `put` followed by `get` on the same key returns the stored payload
exactly while `now - timestamp < TTL` (in particular immediately, for any
positive TTL, and regardless of any prior entry for the key), and returns
`none` — the cold-cache answer — as soon as the elapsed time is no longer
strictly below the TTL. -/
theorem cache_put_get_ttl {α : Type} (c : List (String × α × ℤ)) (k : String) (v : α)
    (now now' ttl : ℤ) :
    cacheGet (cachePut c k v now) k now' ttl =
      (if now' - now < ttl then some v else none) ∧
    cacheGet ([] : List (String × α × ℤ)) k now ttl = none := by
  constructor
  · simp [cacheGet, cachePut, mapGet]
  · simp [cacheGet, mapGet]

/-- C10 counterexample: `clearSearch` at a state with a pending debounce
timer leaves the timer pending — the clear-search action does not clear
the pending debounce timer. -/
theorem clear_search_keeps_timer :
    (SearchUI.clearSearch
      { query := "shepherd", isSearching := false, searchError := none,
        searchResults := [], timerPending := true,
        translations := ["kjv"], topK := 10 }).timerPending = true := rfl

/-- C10 amended: clearing the query does not cancel the pending debounce
timer; instead the scheduled callback re-reads the now-empty query and
early-returns, so no stale search request from a previously scheduled
keystroke ever fires after a clear (the timer fires with an empty effect
list). -/
theorem clear_search_no_stale_dispatch (s : SearchUI.SearchState)
    (outcome : Except String (List SearchUI.SearchResult)) :
    SearchUI.timerFireEffects (SearchUI.clearSearch s) outcome = [] ∧
    (SearchUI.clearSearch s).timerPending = s.timerPending := by
  refine ⟨?_, rfl⟩
  simp [SearchUI.timerFireEffects, SearchUI.clearSearch, SearchUI.performSearch]
  intro
  decide

/-- C5: whenever a place-type or confidence-level filter is supplied,
`fetchBiblicalPlaces` bypasses the whole-collection cache in both
directions: it always issues the documents request (even when the cache
is warm) and leaves the cache exactly as it found it. -/
theorem filtered_fetch_bypasses_cache (params : Geo.SearchPlacesParams)
    (cache : Option Geo.PlacesCacheEntry) (now : ℤ) (resp : Except ℤ Geo.DocsResponse)
    (h : params.placeType ≠ none ∨ params.confidenceLevel ≠ none) :
    (Geo.fetchBiblicalPlaces params cache now resp).request = some Geo.documentsRequest ∧
    (Geo.fetchBiblicalPlaces params cache now resp).cache = cache := by
  rcases h with h | h
  · rcases hp : params.placeType with _ | t
    · exact absurd hp h
    · cases resp <;> simp [Geo.fetchBiblicalPlaces, hp]
  · rcases hc : params.confidenceLevel with _ | c
    · exact absurd hc h
    · cases resp <;> simp [Geo.fetchBiblicalPlaces, hc]

/-- Witness for C5: a `placeType="mountain"` fetch against a warm cache
(entry stored at time 0, read at time 1, well within the 10-minute TTL)
still issues the request and leaves the cache untouched. -/
theorem filtered_fetch_bypasses_cache_witness :
    (({ placeType := some "mountain" } : Geo.SearchPlacesParams).placeType ≠ none ∨
      ({ placeType := some "mountain" } : Geo.SearchPlacesParams).confidenceLevel ≠ none) ∧
    (Geo.fetchBiblicalPlaces { placeType := some "mountain" }
        (some { data := [], timestamp := 0 }) 1 (.ok { documents := [] })).request =
      some Geo.documentsRequest ∧
    (Geo.fetchBiblicalPlaces { placeType := some "mountain" }
        (some { data := [], timestamp := 0 }) 1 (.ok { documents := [] })).cache =
      some { data := [], timestamp := 0 } := by
  refine ⟨Or.inl (by decide), ?_⟩
  exact filtered_fetch_bypasses_cache { placeType := some "mountain" }
    (some { data := [], timestamp := 0 }) 1 (.ok { documents := [] })
    (Or.inl (by decide))

/-- C6: two cold-cache `fetchBiblicalPlaces` calls that differ only in
`placeType` and `confidenceLevel` (same limit, offset and collaborator
response) issue the same HTTP request — one that carries no body, hence
not the locally built metadata filter object — and return identical
results: no client-side filtering by place type or confidence level is
applied (only the domain filter is, inside `allPlaces`, identically for
both calls). -/
theorem filters_not_transmitted (p1 p2 : Geo.SearchPlacesParams) (now1 now2 : ℤ)
    (resp : Geo.DocsResponse)
    (hl : p1.limit = p2.limit) (ho : p1.offset = p2.offset) :
    (Geo.fetchBiblicalPlaces p1 none now1 (.ok resp)).request =
      (Geo.fetchBiblicalPlaces p2 none now2 (.ok resp)).request ∧
    (Geo.fetchBiblicalPlaces p1 none now1 (.ok resp)).result =
      (Geo.fetchBiblicalPlaces p2 none now2 (.ok resp)).result ∧
    Geo.documentsRequest.body = none := by
  refine ⟨?_, ?_, rfl⟩ <;> simp [Geo.fetchBiblicalPlaces, hl, ho]

/-- Witness for C6: an unfiltered call and a `placeType`/`confidenceLevel`
filtered call over a one-document listing produce the same request and
the same result. -/
theorem filters_not_transmitted_witness :
    (({} : Geo.SearchPlacesParams).limit =
      ({ placeType := some "mountain", confidenceLevel := some "high" } :
        Geo.SearchPlacesParams).limit) ∧
    (({} : Geo.SearchPlacesParams).offset =
      ({ placeType := some "mountain", confidenceLevel := some "high" } :
        Geo.SearchPlacesParams).offset) ∧
    (Geo.fetchBiblicalPlaces {} none 5
        (.ok { documents := [{ id := some "p1", document_id := some "p1",
                               content := some "Mount Sinai: a mountain",
                               metadata := some { domain := some "geography/biblical",
                                                  name := some "Mount Sinai",
                                                  place_type := some "mountain",
                                                  confidence := some 100 } }] })).result =
      (Geo.fetchBiblicalPlaces
          { placeType := some "mountain", confidenceLevel := some "high" } none 9
          (.ok { documents := [{ id := some "p1", document_id := some "p1",
                                 content := some "Mount Sinai: a mountain",
                                 metadata := some { domain := some "geography/biblical",
                                                    name := some "Mount Sinai",
                                                    place_type := some "mountain",
                                                    confidence := some 100 } }] })).result := by
  refine ⟨rfl, rfl, ?_⟩
  exact (filters_not_transmitted {}
    { placeType := some "mountain", confidenceLevel := some "high" } 5 9
    { documents := [{ id := some "p1", document_id := some "p1",
                      content := some "Mount Sinai: a mountain",
                      metadata := some { domain := some "geography/biblical",
                                         name := some "Mount Sinai",
                                         place_type := some "mountain",
                                         confidence := some 100 } }] }
    rfl rfl).2.1

/-- C7 counterexample: the Greek text lookup is not served through the
shared response cache.  A first call on a cold cache leaves the cache
empty and takes the non-cache branch, and a repeated call 10 minutes
later (well within the 30-minute TTL) takes the non-cache branch again
instead of returning a cached payload. -/
theorem greek_lookup_not_cached :
    (Sword.getGreekText "John" 1 1 none [] 0).2.1 = [] ∧
    (Sword.getGreekText "John" 1 1 none [] 0).2.2 = true ∧
    (Sword.getGreekText "John" 1 1 none
      (Sword.getGreekText "John" 1 1 none [] 0).2.1 600000).2.2 = true := by
  decide

/-- C7 amended: only the Hebrew lookup is served through the shared
30-minute-TTL response cache (a repeated call within the TTL returns the
cached payload through the cache branch); the Greek and interlinear
lookups bypass the cache entirely; and the geography unfiltered place
listing is served through its own 10-minute-TTL cache (a warm read issues
no request). -/
theorem cache_paths_amended
    (book : String) (chapter verse : ℤ) (fr fr' : Option Sword.VerseText)
    (fri : Option Sword.InterlinearVerse) (cache : Sword.VCache) (now now' : ℤ)
    (e : Geo.PlacesCacheEntry) (params : Geo.SearchPlacesParams)
    (resp : Except ℤ Geo.DocsResponse) (gnow : ℤ)
    (hmiss : cacheGet cache (Sword.hebrewKey book chapter verse) now Sword.CACHE_TTL = none)
    (hfresh : now' - now < Sword.CACHE_TTL)
    (hp : params.placeType = none) (hc : params.confidenceLevel = none)
    (hg : gnow - e.timestamp < Geo.CACHE_TTL) :
    Sword.CACHE_TTL = 30 * 60 * 1000 ∧
    Geo.CACHE_TTL = 10 * 60 * 1000 ∧
    Sword.getHebrewText book chapter verse fr'
        (Sword.getHebrewText book chapter verse fr cache now).2.1 now' =
      ((Sword.getHebrewText book chapter verse fr cache now).1,
       (Sword.getHebrewText book chapter verse fr cache now).2.1, false) ∧
    (Sword.getGreekText book chapter verse fr cache now).2.1 = cache ∧
    (Sword.getGreekText book chapter verse fr cache now).2.2 = true ∧
    (Sword.getInterlinear book chapter verse fri cache now).2.1 = cache ∧
    (Sword.getInterlinear book chapter verse fri cache now).2.2 = true ∧
    (Geo.fetchBiblicalPlaces params (some e) gnow resp).request = none ∧
    (Geo.fetchBiblicalPlaces params (some e) gnow resp).cache = some e := by
  refine ⟨rfl, rfl, ?_, rfl, rfl, rfl, rfl, ?_, ?_⟩
  · simp only [Sword.getHebrewText, hmiss, Sword.USE_MOCK_DATA, if_true]
    simp [cacheGet, cachePut, mapGet, hfresh]
  · simp [Geo.fetchBiblicalPlaces, hp, hc, hg]
  · simp [Geo.fetchBiblicalPlaces, hp, hc, hg]

/-- Witness for C7's amended statement at concrete inputs: a cold Hebrew
cache at time 0 reread at time 1000, and a warm places cache entry from
time 0 read at time 5. -/
theorem cache_paths_amended_witness :
    cacheGet ([] : Sword.VCache) (Sword.hebrewKey "Genesis" 1 1) 0 Sword.CACHE_TTL = none ∧
    (1000 : ℤ) - 0 < Sword.CACHE_TTL ∧
    (({} : Geo.SearchPlacesParams).placeType = none) ∧
    (5 : ℤ) - (0 : ℤ) < Geo.CACHE_TTL ∧
    Sword.getHebrewText "Genesis" 1 1 none
        (Sword.getHebrewText "Genesis" 1 1 none [] 0).2.1 1000 =
      ((Sword.getHebrewText "Genesis" 1 1 none [] 0).1,
       (Sword.getHebrewText "Genesis" 1 1 none [] 0).2.1, false) ∧
    (Geo.fetchBiblicalPlaces {} (some { data := [], timestamp := 0 }) 5
        (.ok { documents := [] })).request = none := by
  have h := cache_paths_amended "Genesis" 1 1 none none none [] 0 1000
    { data := [], timestamp := 0 } {} (.ok { documents := [] }) 5
    (by decide) (by decide) rfl rfl (by decide)
  exact ⟨by decide, by decide, rfl, by decide, h.2.2.1, h.2.2.2.2.2.2.2.1⟩

/-- C9: for the single mock result on query `"shepherd"` with translations
`["kjv"]`, the text exporter's line array contains the line
`1. Psalms 23:1 (KJV)` (1-based index, upper-cased translation) and the
line `   Similarity: 87%` (similarity as a rounded percentage with 0
decimal places), so the `.txt` body contains both strings. -/
theorem export_text_concrete :
    "1. Psalms 23:1 (KJV)" ∈
      SearchUI.exportResultsLines "shepherd" ["kjv"] "10/11/2026"
        [{ verse_ref := "Psalms 23:1", book := "Psalms", chapter := 23, verse := 1,
           translation := "kjv", text := "The LORD is my shepherd...",
           similarity := 0.87 }] ∧
    "   " ++ "Similarity: 87%" ∈
      SearchUI.exportResultsLines "shepherd" ["kjv"] "10/11/2026"
        [{ verse_ref := "Psalms 23:1", book := "Psalms", chapter := 23, verse := 1,
           translation := "kjv", text := "The LORD is my shepherd...",
           similarity := 0.87 }] := by
  have h87 : jsToFixed0 ((0.87 : ℚ) * 100) = 87 := by
    unfold jsToFixed0; norm_num
  constructor
  · simp [SearchUI.exportResultsLines]
    refine Or.inr (Or.inr (Or.inr (Or.inl ?_)))
    decide
  · simp [SearchUI.exportResultsLines, SearchUI.jsToFixed0Str, h87]
    decide


namespace CSV

theorem mk_data (s : String) : (⟨s.data⟩ : String) = s := by
  cases s
  rfl

theorem data_append (a b : String) : (a ++ b).data = a.data ++ b.data := rfl

theorem joinSep_cons_ne (sep x : String) (xs : List String) (h : xs ≠ []) :
    joinSep sep (x :: xs) = x ++ sep ++ joinSep sep xs := by
  cases xs with
  | nil => exact absurd rfl h
  | cons y ys => rfl

theorem pq_nil : pq [] = ([], []) := rfl

theorem pq_cons_other {c : Char} (rest : List Char) (hc : ¬ (c = '"')) :
    pq (c :: rest) = (c :: (pq rest).1, (pq rest).2) := by
  rw [pq.eq_def]
  simp [hc]

theorem pq_quote_quote (rest2 : List Char) :
    pq ('"' :: '"' :: rest2) = ('"' :: (pq rest2).1, (pq rest2).2) := by
  rw [pq.eq_def]
  simp

theorem pq_quote_other {c : Char} (rest : List Char) (hc : ¬ (c = '"')) :
    pq ('"' :: c :: rest) = ([], c :: rest) := by
  rw [pq.eq_def]
  simp [hc]

theorem pq_quote_nil : pq ['"'] = ([], []) := by
  rw [pq.eq_def]
  simp

theorem pu_nil : pu [] = ([], []) := rfl

theorem pu_stop {c : Char} (rest : List Char) (hc : c = ',' ∨ c = '\n') :
    pu (c :: rest) = ([], c :: rest) := by
  rw [pu.eq_def]
  rcases hc with hc | hc <;> simp [hc]

theorem pu_other {c : Char} (rest : List Char) (hc : ¬(c = ',' ∨ c = '\n')) :
    pu (c :: rest) = (c :: (pu rest).1, (pu rest).2) := by
  push_neg at hc
  rw [pu.eq_def]
  simp [hc.1, hc.2]

theorem parseField_quote (body : List Char) : parseField ('"' :: body) = pq body := rfl

theorem parseField_nil : parseField [] = ([], []) := rfl

theorem parseField_cons_other {c : Char} (rest : List Char) (hc : ¬ (c = '"')) :
    parseField (c :: rest) = pu (c :: rest) := by
  rw [parseField.eq_def]
  split
  · rename_i heq
    injection heq with h1 h2
    exact absurd h1 hc
  · rfl

theorem pq_len : ∀ cs : List Char, (pq cs).2.length ≤ cs.length := by
  have H : ∀ n (cs : List Char), cs.length ≤ n → (pq cs).2.length ≤ cs.length := by
    intro n
    induction n with
    | zero =>
      intro cs h
      cases cs with
      | nil => simp [pq_nil]
      | cons c rest => simp at h
    | succ n ih =>
      intro cs h
      match cs with
      | [] => simp [pq_nil]
      | c :: rest =>
        by_cases hc : c = '"'
        · subst hc
          match rest with
          | [] => simp [pq_quote_nil]
          | c2 :: rest2 =>
            by_cases hc2 : c2 = '"'
            · subst hc2
              have h2 := ih rest2 (by simp at h; omega)
              rw [pq_quote_quote]
              simp only [List.length_cons]
              omega
            · rw [pq_quote_other rest2 hc2]
              simp
        · have h2 := ih rest (by simp at h; omega)
          rw [pq_cons_other rest hc]
          simp only [List.length_cons]
          omega
  intro cs
  exact H cs.length cs le_rfl

theorem pu_len : ∀ cs : List Char, (pu cs).2.length ≤ cs.length := by
  intro cs
  induction cs with
  | nil => simp [pu_nil]
  | cons c rest ih =>
    by_cases hc : c = ',' ∨ c = '\n'
    · rw [pu_stop rest hc]
    · rw [pu_other rest hc]
      simp only [List.length_cons]
      omega

theorem parseField_len (cs : List Char) : (parseField cs).2.length ≤ cs.length := by
  match cs with
  | [] => simp [parseField_nil]
  | c :: rest =>
    by_cases hc : c = '"'
    · subst hc
      rw [parseField_quote]
      have := pq_len rest
      simp only [List.length_cons]
      omega
    · rw [parseField_cons_other rest hc]
      exact pu_len (c :: rest)

theorem splitRecsF_irrel :
    ∀ f1 f2 (cs : List Char), cs.length < f1 → cs.length < f2 →
      splitRecsF f1 cs = splitRecsF f2 cs := by
  intro f1
  induction f1 with
  | zero => intro f2 cs h1 h2; omega
  | succ f1 ih =>
    intro f2 cs h1 h2
    cases f2 with
    | zero => omega
    | succ g =>
      simp only [splitRecsF]
      have hpl := parseField_len cs
      cases hrest : (parseField cs).2 with
      | nil => rfl
      | cons c r =>
        rw [hrest] at hpl
        simp only [List.length_cons] at hpl
        by_cases hc : c = ','
        · subst hc
          simp only [if_pos rfl]
          rw [ih g r (by omega) (by omega)]
        · simp only [if_neg hc]
          by_cases hn : c = '\n'
          · subst hn
            simp only [if_pos rfl]
            rw [ih g r (by omega) (by omega)]
          · simp only [if_neg hn]

theorem SR_comma {cs f r} (hp : parseField cs = (f, ',' :: r)) :
    SR cs = consFirst ⟨f⟩ (SR r) := by
  have hpl := parseField_len cs
  rw [hp] at hpl
  simp only [List.length_cons] at hpl
  have key : splitRecsF (cs.length + 1) cs = consFirst ⟨f⟩ (SR r) := by
    simp only [splitRecsF, hp]
    rw [splitRecsF_irrel cs.length (r.length + 1) r (by omega) (by omega)]
    simp [SR]
  exact key

theorem SR_newline {cs f r} (hp : parseField cs = (f, '\n' :: r)) :
    SR cs = [(⟨f⟩ : String)] :: SR r := by
  have hpl := parseField_len cs
  rw [hp] at hpl
  simp only [List.length_cons] at hpl
  have key : splitRecsF (cs.length + 1) cs = [(⟨f⟩ : String)] :: SR r := by
    simp only [splitRecsF, hp]
    rw [splitRecsF_irrel cs.length (r.length + 1) r (by omega) (by omega)]
    simp [SR]
  exact key

theorem SR_end {cs f} (hp : parseField cs = (f, [])) :
    SR cs = [[(⟨f⟩ : String)]] := by
  unfold SR
  simp only [splitRecsF, hp]

end CSV

namespace CSV

theorem pq_escape (t : List Char) :
    ∀ rest : List Char, headNotQuote rest = true →
      pq (SearchUI.dupQuotes t ++ '"' :: rest) = (t, rest) := by
  induction t with
  | nil =>
    intro rest h
    cases rest with
    | nil => simpa [SearchUI.dupQuotes] using pq_quote_nil
    | cons c rs =>
      have hc : ¬ (c = '"') := by
        simp [headNotQuote] at h
        exact h
      simpa [SearchUI.dupQuotes] using pq_quote_other rs hc
  | cons c t' ih =>
    intro rest h
    by_cases hc : c = '"'
    · subst hc
      have : SearchUI.dupQuotes ('"' :: t') = '"' :: '"' :: SearchUI.dupQuotes t' := by
        simp [SearchUI.dupQuotes]
      rw [this]
      simp only [List.cons_append]
      rw [pq_quote_quote, ih rest h]
    · have : SearchUI.dupQuotes (c :: t') = c :: SearchUI.dupQuotes t' := by
        simp [SearchUI.dupQuotes, hc]
      rw [this]
      simp only [List.cons_append]
      rw [pq_cons_other _ hc, ih rest h]

theorem pu_clean (f : List Char) :
    ∀ rest : List Char, (∀ c ∈ f, ¬(c = ',' ∨ c = '\n')) → headStop rest = true →
      pu (f ++ rest) = (f, rest) := by
  induction f with
  | nil =>
    intro rest hf hs
    cases rest with
    | nil => simpa using pu_nil
    | cons c rs =>
      have hc : c = ',' ∨ c = '\n' := by
        simp [headStop] at hs
        rcases hs with hs | hs
        · exact Or.inl hs
        · exact Or.inr hs
      simpa using pu_stop rs hc
  | cons c f' ih =>
    intro rest hf hs
    have hc : ¬(c = ',' ∨ c = '\n') := hf c (List.mem_cons_self c f')
    simp only [List.cons_append]
    rw [pu_other _ hc, ih rest (fun d hd => hf d (List.mem_cons_of_mem c hd)) hs]

theorem cleanF_sep {s : String} (h : CleanF s) :
    ∀ c ∈ s.data, ¬(c = ',' ∨ c = '\n') := by
  intro c hc hor
  exact h c hc (by tauto)

theorem cleanF_noquote {s : String} (h : CleanF s) : ∀ c ∈ s.data, ¬ (c = '"') := by
  intro c hc he
  exact h c hc (by tauto)

theorem parseField_clean (f : String) (rest : List Char)
    (hf : CleanF f) (hs : headStop rest = true) :
    parseField (f.data ++ rest) = (f.data, rest) := by
  cases hd : f.data with
  | nil =>
    simp only [List.nil_append]
    cases rest with
    | nil => exact parseField_nil
    | cons c rs =>
      have hcs : c = ',' ∨ c = '\n' := by
        simp [headStop] at hs
        rcases hs with hs | hs
        · exact Or.inl hs
        · exact Or.inr hs
      have hc : ¬ (c = '"') := by
        rintro rfl
        rcases hcs with h1 | h1 <;> exact absurd h1 (by decide)
      rw [parseField_cons_other rs hc, pu_stop rs hcs]
  | cons c cs =>
    have hmem : c ∈ f.data := by rw [hd]; exact List.mem_cons_self c cs
    have hq : ¬ (c = '"') := cleanF_noquote hf c hmem
    simp only [List.cons_append]
    rw [parseField_cons_other _ hq]
    have := pu_clean (c :: cs) rest (by
      intro d hd2
      apply cleanF_sep hf
      rw [hd]
      exact hd2) hs
    rw [← List.cons_append, this]

theorem parseField_quoted (t : String) (rest : List Char)
    (h : headNotQuote rest = true) :
    parseField (("\"" ++ SearchUI.csvEscape t ++ "\"").data ++ rest) = (t.data, rest) := by
  have hd : ("\"" ++ SearchUI.csvEscape t ++ "\"").data ++ rest
      = '"' :: (SearchUI.dupQuotes t.data ++ '"' :: rest) := by
    simp [data_append, SearchUI.csvEscape, List.append_assoc]
  rw [hd, parseField_quote, pq_escape t.data rest h]

end CSV

namespace CSV

theorem record_quoted_parse (fs : List String) (t : String) (r : List Char)
    (hc : ∀ f ∈ fs, CleanF f) :
    SR ((joinSep "," (fs ++ ["\"" ++ SearchUI.csvEscape t ++ "\""])).data ++ '\n' :: r)
        = (fs ++ [t]) :: SR r ∧
    SR ((joinSep "," (fs ++ ["\"" ++ SearchUI.csvEscape t ++ "\""])).data)
        = [fs ++ [t]] := by
  induction fs with
  | nil =>
    constructor
    · have hp := parseField_quoted t ('\n' :: r) (by simp [headNotQuote])
      have h2 := SR_newline hp
      rw [mk_data] at h2
      simp only [List.nil_append]
      exact h2
    · have hp := parseField_quoted t [] rfl
      rw [List.append_nil] at hp
      have h2 := SR_end hp
      rw [mk_data] at h2
      simp only [List.nil_append]
      exact h2
  | cons g gs ih =>
    have hgs : gs ++ ["\"" ++ SearchUI.csvEscape t ++ "\""] ≠ [] := by simp
    have hj : joinSep "," ((g :: gs) ++ ["\"" ++ SearchUI.csvEscape t ++ "\""])
        = g ++ "," ++ joinSep "," (gs ++ ["\"" ++ SearchUI.csvEscape t ++ "\""]) := by
      rw [List.cons_append]
      exact joinSep_cons_ne "," g _ hgs
    have hgclean : CleanF g := hc g (List.mem_cons_self g gs)
    have hcrest : ∀ f ∈ gs, CleanF f := fun f hf => hc f (List.mem_cons_of_mem g hf)
    have ih2 := ih hcrest
    constructor
    · have hdata : (joinSep "," ((g :: gs) ++ ["\"" ++ SearchUI.csvEscape t ++ "\""])).data ++ '\n' :: r
          = g.data ++ ',' :: ((joinSep "," (gs ++ ["\"" ++ SearchUI.csvEscape t ++ "\""])).data ++ '\n' :: r) := by
        rw [hj]
        simp [data_append, List.append_assoc]
      rw [hdata]
      have hp := parseField_clean g
        (',' :: ((joinSep "," (gs ++ ["\"" ++ SearchUI.csvEscape t ++ "\""])).data ++ '\n' :: r))
        hgclean (by simp [headStop])
      rw [SR_comma hp, ih2.1, mk_data]
      rfl
    · have hdata : (joinSep "," ((g :: gs) ++ ["\"" ++ SearchUI.csvEscape t ++ "\""])).data
          = g.data ++ ',' :: (joinSep "," (gs ++ ["\"" ++ SearchUI.csvEscape t ++ "\""])).data := by
        rw [hj]
        simp [data_append, List.append_assoc]
      rw [hdata]
      have hp := parseField_clean g
        (',' :: (joinSep "," (gs ++ ["\"" ++ SearchUI.csvEscape t ++ "\""])).data)
        hgclean (by simp [headStop])
      rw [SR_comma hp, ih2.2, mk_data]
      rfl

theorem record_unquoted_parse (fs : List String) (f : String) (r : List Char)
    (hcs : ∀ g ∈ fs, CleanF g) (hf : CleanF f) :
    SR ((joinSep "," (fs ++ [f])).data ++ '\n' :: r) = (fs ++ [f]) :: SR r := by
  induction fs with
  | nil =>
    have hp := parseField_clean f ('\n' :: r) hf (by simp [headStop])
    have h2 := SR_newline hp
    rw [mk_data] at h2
    simp only [List.nil_append]
    exact h2
  | cons g gs ih =>
    have hgs : gs ++ [f] ≠ [] := by simp
    have hj : joinSep "," ((g :: gs) ++ [f]) = g ++ "," ++ joinSep "," (gs ++ [f]) := by
      rw [List.cons_append]
      exact joinSep_cons_ne "," g _ hgs
    have hgclean : CleanF g := hcs g (List.mem_cons_self g gs)
    have hdata : (joinSep "," ((g :: gs) ++ [f])).data ++ '\n' :: r
        = g.data ++ ',' :: ((joinSep "," (gs ++ [f])).data ++ '\n' :: r) := by
      rw [hj]
      simp [data_append, List.append_assoc]
    rw [hdata]
    have hp := parseField_clean g (',' :: ((joinSep "," (gs ++ [f])).data ++ '\n' :: r))
      hgclean (by simp [headStop])
    rw [SR_comma hp, ih (fun d hd => hcs d (List.mem_cons_of_mem g hd)), mk_data]
    rfl

theorem digitChar_clean (m : ℕ) :
    ¬(Nat.digitChar m = ',' ∨ Nat.digitChar m = '\n' ∨ Nat.digitChar m = '"') := by
  by_cases h0 : m < 16
  · interval_cases m <;> decide
  · have h1 : Nat.digitChar m = '*' := by
      unfold Nat.digitChar
      repeat rw [if_neg (by omega)]
    rw [h1]
    decide

theorem toDigitsCore_mem {b : ℕ} :
    ∀ (fuel n : ℕ) (acc : List Char) (c : Char),
      c ∈ Nat.toDigitsCore b fuel n acc → c ∈ acc ∨ ∃ m, c = Nat.digitChar m := by
  intro fuel
  induction fuel with
  | zero =>
    intro n acc c h
    rw [Nat.toDigitsCore] at h
    exact Or.inl h
  | succ fuel ih =>
    intro n acc c h
    rw [Nat.toDigitsCore] at h
    split at h
    · rcases List.mem_cons.mp h with h | h
      · exact Or.inr ⟨n % b, h⟩
      · exact Or.inl h
    · rcases ih (n / b) (Nat.digitChar (n % b) :: acc) c h with h | h
      · rcases List.mem_cons.mp h with h | h
        · exact Or.inr ⟨n % b, h⟩
        · exact Or.inl h
      · exact Or.inr h

theorem natRepr_clean (n : ℕ) : CleanF (Nat.repr n) := by
  intro c hc
  have hd : (Nat.repr n).data = Nat.toDigits 10 n := rfl
  rw [hd] at hc
  unfold Nat.toDigits at hc
  rcases toDigitsCore_mem (n + 1) n [] c hc with h | ⟨m, rfl⟩
  · simp at h
  · exact digitChar_clean m

theorem intRepr_clean (n : ℤ) : CleanF (Int.repr n) := by
  cases n with
  | ofNat m => exact natRepr_clean m
  | negSucc m =>
    intro c hc
    rw [show Int.repr (Int.negSucc m) = "-" ++ Nat.repr (m + 1) from rfl] at hc
    rw [data_append] at hc
    rcases List.mem_append.mp hc with h | h
    · have : c = '-' := by simpa using h
      subst this
      decide
    · exact natRepr_clean (m + 1) c h

theorem simPercent_clean (q : ℚ) : CleanF (SearchUI.simPercent q) := by
  intro c hc
  rw [show SearchUI.simPercent q
      = SearchUI.jsToFixed0Str (q * 100) ++ "%" from rfl] at hc
  rw [data_append] at hc
  rcases List.mem_append.mp hc with h | h
  · exact intRepr_clean (jsToFixed0 (q * 100)) c h
  · have : c = '%' := by simpa using h
    subst this
    decide

end CSV

namespace CSV

theorem rows_parse (results : List SearchUI.SearchResult)
    (hclean : ∀ x ∈ results,
        CleanF x.verse_ref ∧ CleanF x.book ∧
        CleanF (SearchUI.jsToUpperCase x.translation)) :
    results ≠ [] →
    SR ((joinSep "\n" (results.map (fun z => joinSep "," (SearchUI.csvRow z)))).data)
      = results.map parsedRow := by
  induction results with
  | nil => intro h; exact absurd rfl h
  | cons x xs ih =>
    intro _
    have hx := hclean x (List.mem_cons_self x xs)
    have hprefix : ∀ f ∈ [x.verse_ref, x.book, Int.repr x.chapter, Int.repr x.verse,
        SearchUI.jsToUpperCase x.translation, SearchUI.simPercent x.similarity], CleanF f := by
      intro f hf
      simp only [List.mem_cons, List.not_mem_nil, or_false] at hf
      rcases hf with rfl | rfl | rfl | rfl | rfl | rfl
      · exact hx.1
      · exact hx.2.1
      · exact intRepr_clean _
      · exact intRepr_clean _
      · exact hx.2.2
      · exact simPercent_clean _
    have hrow : SearchUI.csvRow x
        = [x.verse_ref, x.book, Int.repr x.chapter, Int.repr x.verse,
           SearchUI.jsToUpperCase x.translation, SearchUI.simPercent x.similarity]
          ++ ["\"" ++ SearchUI.csvEscape x.text ++ "\""] := rfl
    cases xs with
    | nil =>
      simp only [List.map_cons, List.map_nil]
      show SR ((joinSep "," (SearchUI.csvRow x)).data) = [parsedRow x]
      rw [hrow, (record_quoted_parse _ x.text [] hprefix).2]
      rfl
    | cons y ys =>
      have hj : joinSep "\n" ((x :: y :: ys).map (fun z => joinSep "," (SearchUI.csvRow z)))
          = joinSep "," (SearchUI.csvRow x) ++ "\n"
            ++ joinSep "\n" ((y :: ys).map (fun z => joinSep "," (SearchUI.csvRow z))) := by
        simp only [List.map_cons]
        rfl
      rw [hj]
      have hdata : (joinSep "," (SearchUI.csvRow x) ++ "\n"
            ++ joinSep "\n" ((y :: ys).map (fun z => joinSep "," (SearchUI.csvRow z)))).data
          = (joinSep "," (SearchUI.csvRow x)).data
            ++ '\n' :: (joinSep "\n" ((y :: ys).map (fun z => joinSep "," (SearchUI.csvRow z)))).data := by
        simp [data_append]
      rw [hdata, hrow, (record_quoted_parse _ x.text _ hprefix).1,
        ih (fun z hz => hclean z (List.mem_cons_of_mem x hz)) (List.cons_ne_nil y ys)]
      rfl

end CSV

/-- C8 counterexample: for the result with translation `"kjv"`, parsing
the CSV export with the standard parser yields the translation field
`"KJV"` — the exporter upper-cases it — so the parse does not recover the
same translation field as the input. -/
theorem csv_roundtrip_counterexample :
    CSV.parseCSV (SearchUI.exportAsCSVContent
      [{ verse_ref := "Psalms 23:1", book := "Psalms", chapter := 23, verse := 1,
         translation := "kjv", text := "The LORD is my shepherd...",
         similarity := 0.87 }])
      = [SearchUI.csvHeaders,
         ["Psalms 23:1", "Psalms", "23", "1", "KJV", "87%",
          "The LORD is my shepherd..."]] ∧
    "KJV" ≠ "kjv" := by
  have hs : SearchUI.simPercent ((0.87 : ℚ)) = "87%" := by
    unfold SearchUI.simPercent SearchUI.jsToFixed0Str jsToFixed0
    norm_num
    decide
  constructor
  · rw [show SearchUI.exportAsCSVContent
        [{ verse_ref := "Psalms 23:1", book := "Psalms", chapter := 23, verse := 1,
           translation := "kjv", text := "The LORD is my shepherd...",
           similarity := 0.87 }]
      = joinSep "\n" [joinSep "," SearchUI.csvHeaders,
          joinSep "," ["Psalms 23:1", "Psalms", Int.repr 23, Int.repr 1,
            SearchUI.jsToUpperCase "kjv", SearchUI.simPercent 0.87,
            "\"" ++ SearchUI.csvEscape "The LORD is my shepherd..." ++ "\""]] from rfl]
    rw [hs]
    decide
  · decide

/-- C8 amended: for every nonempty result set whose reference, book and
(upper-cased) translation fields contain no comma, newline or double
quote, the standard CSV parse of the export is exactly the header row
`Reference,Book,Chapter,Verse,Translation,Similarity,Text` followed by
one row per result carrying the reference, book and text fields verbatim
(so the `Text` quote-escaping is reversible), the similarity as a rounded
percentage with a trailing `%`, and the translation upper-cased — not, as
the claim stated, the original translation field. -/
theorem csv_roundtrip_amended (results : List SearchUI.SearchResult)
    (hne : results ≠ [])
    (hclean : ∀ x ∈ results,
        CSV.CleanF x.verse_ref ∧ CSV.CleanF x.book ∧
        CSV.CleanF (SearchUI.jsToUpperCase x.translation)) :
    CSV.parseCSV (SearchUI.exportAsCSVContent results)
      = SearchUI.csvHeaders :: results.map CSV.parsedRow := by
  cases results with
  | nil => exact absurd rfl hne
  | cons x xs =>
    show CSV.SR ((joinSep "\n" (joinSep "," SearchUI.csvHeaders
        :: (x :: xs).map (fun z => joinSep "," (SearchUI.csvRow z)))).data) = _
    have hj : joinSep "\n" (joinSep "," SearchUI.csvHeaders
          :: (x :: xs).map (fun z => joinSep "," (SearchUI.csvRow z)))
        = joinSep "," SearchUI.csvHeaders ++ "\n"
          ++ joinSep "\n" ((x :: xs).map (fun z => joinSep "," (SearchUI.csvRow z))) := by
      simp only [List.map_cons]
      rfl
    rw [hj]
    have hdata : (joinSep "," SearchUI.csvHeaders ++ "\n"
          ++ joinSep "\n" ((x :: xs).map (fun z => joinSep "," (SearchUI.csvRow z)))).data
        = (joinSep "," SearchUI.csvHeaders).data
          ++ '\n' :: (joinSep "\n" ((x :: xs).map (fun z => joinSep "," (SearchUI.csvRow z)))).data := by
      simp [CSV.data_append]
    rw [hdata]
    rw [show joinSep "," SearchUI.csvHeaders
        = joinSep "," (["Reference", "Book", "Chapter", "Verse", "Translation", "Similarity"]
            ++ ["Text"]) from rfl]
    rw [CSV.record_unquoted_parse _ "Text" _
      (by
        intro g hg
        simp only [List.mem_cons, List.not_mem_nil, or_false] at hg
        rcases hg with rfl | rfl | rfl | rfl | rfl | rfl <;> decide)
      (by decide)]
    rw [CSV.rows_parse (x :: xs) hclean (List.cons_ne_nil x xs)]
    rfl

/-- Witness for C8's amended statement: a result whose text contains
commas and escaped double quotes round-trips, with the translation
upper-cased. -/
theorem csv_roundtrip_amended_witness :
    (([{ verse_ref := "Psalms 23:1", book := "Psalms", chapter := 23, verse := 1,
         translation := "kjv", text := "He said \"peace, be still\", twice",
         similarity := 0.87 }] : List SearchUI.SearchResult) ≠ []) ∧
    (∀ x ∈ ([{ verse_ref := "Psalms 23:1", book := "Psalms", chapter := 23, verse := 1,
               translation := "kjv", text := "He said \"peace, be still\", twice",
               similarity := 0.87 }] : List SearchUI.SearchResult),
        CSV.CleanF x.verse_ref ∧ CSV.CleanF x.book ∧
        CSV.CleanF (SearchUI.jsToUpperCase x.translation)) ∧
    CSV.parseCSV (SearchUI.exportAsCSVContent
        [{ verse_ref := "Psalms 23:1", book := "Psalms", chapter := 23, verse := 1,
           translation := "kjv", text := "He said \"peace, be still\", twice",
           similarity := 0.87 }])
      = SearchUI.csvHeaders
        :: [{ verse_ref := "Psalms 23:1", book := "Psalms", chapter := 23, verse := 1,
              translation := "kjv", text := "He said \"peace, be still\", twice",
              similarity := 0.87 }].map CSV.parsedRow := by
  refine ⟨List.cons_ne_nil _ _, ?_, ?_⟩
  · intro x hx
    simp only [List.mem_cons, List.not_mem_nil, or_false] at hx
    subst hx
    refine ⟨by decide, by decide, by decide⟩
  · exact csv_roundtrip_amended _ (List.cons_ne_nil _ _)
      (by
        intro x hx
        simp only [List.mem_cons, List.not_mem_nil, or_false] at hx
        subst hx
        exact ⟨by decide, by decide, by decide⟩)
